import Mathlib

/-!
Shallow embedding of the OWON HDS200 SCPI protocol engine
(`owon_scpi_base.py`, with `owon_serial_scpi.py` / `owon_usb_scpi.py`
supplying the transport `close` operations).

Bytes and string code points are modelled as `Nat`; Python `bytes` and
`str` become `List Nat`.  Python exceptions become `Except` values.  The
abstract transport (`_write_bytes` / `_read_bytes`) is modelled as a
`Transport` record carrying a write log, a scripted read outcome, and an
open/closed flag.  The interactive CLI loop and the stdlib JSON parser
are outside the engine and are not embedded; the `json` query branch
returns the raw payload handed to the JSON decoder.
-/

/-- Failure modes of `parse_and_validate_packet` (each is a Python
`ValueError` with a distinct message in the source). -/
inductive ParseError where
  | shortHeader
  | zeroLength
  | unreasonableLength
  | truncatedPacket
  | missingTerminator
deriving DecidableEq, Repr

/-- Successful parse result: the stripped payload plus whether the
non-fatal "extra bytes" diagnostic print fired. -/
structure ParseOk where
  payload : List Nat
  diagnostic : Bool
deriving DecidableEq, Repr

/-- Python `int.from_bytes(bs, byteorder="little", signed=False)`. -/
def intFromBytesLE (bs : List Nat) : Nat :=
  bs.foldr (fun b acc => b + 256 * acc) 0

/-- 4-byte little-endian encoding of `n` (the wire format of the packet
length header). -/
def encodeLE4 (n : Nat) : List Nat :=
  [n % 256, n / 256 % 256, n / 65536 % 256, n / 16777216 % 256]

/-- Python `bytes.find` for a single byte: index of the first occurrence,
`none` when absent (the source's `-1`). -/
def bfind : List Nat → Nat → Option Nat
  | [], _ => none
  | x :: xs, b => if x = b then some 0 else (bfind xs b).map (· + 1)

/-- Constant `UNREASONABLE_PACKET_HEADER_LENGTH` from the source. -/
def UNREASONABLE_PACKET_HEADER_LENGTH : Nat := 4096

/-- Embedding of `parse_and_validate_packet(data, length_header)` from
`owon_scpi_base.py`.  With `length_header = true` the first 4 bytes are an
unsigned little-endian payload length; otherwise the payload ends at the
first newline byte (10).  Raised `ValueError`s become `Except.error`. -/
def parse_and_validate_packet (data : List Nat) (length_header : Bool) :
    Except ParseError ParseOk :=
  if length_header then
    if data.length < 4 then
      .error .shortHeader
    else
      let hdr_length := intFromBytesLE (data.take 4)
      if hdr_length = 0 then
        .error .zeroLength
      else if hdr_length > UNREASONABLE_PACKET_HEADER_LENGTH then
        .error .unreasonableLength
      else if data.length - 4 < hdr_length then
        .error .truncatedPacket
      else
        .ok ⟨(data.drop 4).take hdr_length, decide (data.length - 4 > hdr_length)⟩
  else
    match bfind data 10 with
    | none => .error .missingTerminator
    | some newline => .ok ⟨data.take newline, decide (newline ≠ data.length - 1)⟩

/-- Whether the scripted transport write succeeds or raises. -/
inductive WriteBehavior where
  | ok
  | fail
deriving DecidableEq, Repr

/-- What one bounded transport read returns: a timeout, or a byte buffer
(possibly empty). -/
inductive ReadBehavior where
  | timeout
  | data (bs : List Nat)
deriving DecidableEq, Repr

/-- Transport stub: open/closed flag, log of performed writes, scripted
write and read behavior. -/
structure Transport where
  isOpen : Bool
  writes : List (List Nat)
  writeBehavior : WriteBehavior
  response : ReadBehavior
deriving DecidableEq, Repr

/-- A fresh transport stub with a scripted read outcome. -/
def stubTransport (r : ReadBehavior) : Transport :=
  { isOpen := true, writes := [], writeBehavior := .ok, response := r }

/-- How one `_send_command` call ended.  In the source both failure cases
are a caught exception (printed, `False` returned); they are observably
distinct through the printed message. -/
inductive SendOutcome where
  | sent
  | encodingFailed
  | writeFailed
deriving DecidableEq, Repr

/-- The newline-termination step of `_send_command`:
`if not command.endswith("\n"): command += "\n"`. -/
def terminate (cmd : List Nat) : List Nat :=
  if cmd.getLast? = some 10 then cmd else cmd ++ [10]

/-- Embedding of `_send_command` from `owon_scpi_base.py`: append a newline when
missing, encode as ASCII (fails on any code point >= 128), write once to
the transport.  Any exception is caught and the call reports failure. -/
def _send_command (t : Transport) (cmd : List Nat) : SendOutcome × Transport :=
  let data := terminate cmd
  if data.all (· < 128) then
    match t.writeBehavior with
    | .ok => (.sent, { t with writes := t.writes ++ [data] })
    | .fail => (.writeFailed, t)
  else
    (.encodingFailed, t)

/-- Errors that can escape `_read_response` / `query` (Python exceptions
that are not caught). -/
inductive EngineError where
  | parse (e : ParseError)
  | decodeAscii
  | invalidArgument
deriving DecidableEq, Repr

/-- Embedding of `_read_response` from `owon_scpi_base.py`.  A timeout (or an empty
read, re-raised as `TimeoutError`) is caught and yields `none`; a parse
`ValueError` propagates; with `binary = false` the payload is decoded as
ASCII (code points >= 128 raise, uncaught). -/
def _read_response (t : Transport) (binary length_header bypass_length_checks : Bool) :
    Except EngineError (Option (List Nat)) :=
  match t.response with
  | .timeout => .ok none
  | .data data =>
    if data.isEmpty then
      .ok none
    else
      match
        (if bypass_length_checks then
          .ok ⟨if length_header then data.drop 4 else data, false⟩
        else
          parse_and_validate_packet data length_header : Except ParseError ParseOk) with
      | .error e => .error (.parse e)
      | .ok pk =>
        if binary then
          .ok (some pk.payload)
        else if pk.payload.all (· < 128) then
          .ok (some pk.payload)
        else
          .error .decodeAscii

/-- The four `data_type` tags accepted by `query`. -/
inductive DataType where
  | str
  | bin
  | int8
  | json
deriving DecidableEq, Repr

/-- Decoded query results.  `json raw` carries the validated ASCII payload
handed to `json.loads` (the JSON parser itself is stdlib, not embedded). -/
inductive QueryResult where
  | none
  | str (s : List Nat)
  | bin (bs : List Nat)
  | int8 (vs : List Int)
  | json (raw : List Nat)
deriving DecidableEq, Repr

/-- Python `int.from_bytes([byte], byteorder="big", signed=True)` for one
byte: the signed 8-bit reinterpretation. -/
def toInt8 (b : Nat) : Int :=
  if b < 128 then (b : Int) else (b : Int) - 256

/-- Embedding of `query` from `owon_scpi_base.py` (the `OwonUSBSCPI.query` copy is
line-for-line the same logic).  Returns the outcome (an uncaught exception
or a value) together with the final transport state. -/
def query (t : Transport) (cmd : List Nat) (data_type : DataType)
    (length_header bypass_length_checks : Bool) :
    Except EngineError QueryResult × Transport :=
  if data_type = .int8 ∧ length_header = false then
    (.error .invalidArgument, t)
  else
    match _send_command t cmd with
    | (.sent, t1) =>
      match data_type with
      | .str | .json =>
        (match _read_response t1 false length_header bypass_length_checks with
        | .error e => (.error e, t1)
        | .ok Option.none => (.ok .none, t1)
        | .ok (some s) =>
          if s.isEmpty then (.ok .none, t1)
          else if data_type = .str then (.ok (.str s), t1)
          else (.ok (.json s), t1))
      | .bin | .int8 =>
        (match _read_response t1 true length_header bypass_length_checks with
        | .error e => (.error e, t1)
        | .ok Option.none => (.ok .none, t1)
        | .ok (some bs) =>
          if bs.isEmpty then (.ok .none, t1)
          else if data_type = .bin then (.ok (.bin bs), t1)
          else (.ok (.int8 (bs.map toInt8)), t1))
    | (_, t1) => (.ok .none, t1)

/-- Embedding of `set` from `owon_scpi_base.py`: delegate to `_send_command`. -/
def set (t : Transport) (cmd : List Nat) : SendOutcome × Transport :=
  _send_command t cmd

/-- State of the serial transport relevant to `close`
(`self._serial.is_open`). -/
structure SerialState where
  isOpen : Bool
deriving DecidableEq, Repr

/-- Embedding of `OwonSerialSCPI.close`: close the serial device if it is open. -/
def serialClose (s : SerialState) : Bool × SerialState :=
  if s.isOpen then (true, ⟨false⟩) else (false, s)

/-- State of the USB transport relevant to `close`
(`self._device`, `None` once disposed). -/
structure UsbState where
  deviceAttached : Bool
deriving DecidableEq, Repr

/-- Embedding of `OwonUSBSCPI.close`: dispose USB resources if a device is attached. -/
def usbClose (s : UsbState) : Bool × UsbState :=
  if s.deviceAttached then (true, ⟨false⟩) else (false, s)

/-- The printable ASCII range (0x20 to 0x7E). -/
def printableAscii (c : Nat) : Prop :=
  32 ≤ c ∧ c ≤ 126

instance (c : Nat) : Decidable (printableAscii c) := by
  unfold printableAscii
  infer_instance

/-- A byte string ends with exactly one trailing newline: its last byte is
a newline and the byte before it (if any) is not. -/
def endsWithSingleNewline (s : List Nat) : Prop :=
  s.getLast? = some 10 ∧ s.dropLast.getLast? ≠ some 10

instance (s : List Nat) : Decidable (endsWithSingleNewline s) := by
  unfold endsWithSingleNewline
  exact instDecidableAnd

/-! ### Helper lemmas -/

lemma intFromBytesLE_encodeLE4 (n : Nat) (h : n ≤ 4096) :
    intFromBytesLE (encodeLE4 n) = n := by
  simp only [encodeLE4, intFromBytesLE, List.foldr]
  omega

lemma encodeLE4_length (n : Nat) : (encodeLE4 n).length = 4 := rfl

lemma lp_roundtrip (n : Nat) (p suffix : List Nat)
    (h1 : 1 ≤ n) (h2 : n ≤ 4096) (hp : p.length = n) :
    parse_and_validate_packet (encodeLE4 n ++ p ++ suffix) true
      = .ok ⟨p, decide (0 < suffix.length)⟩ := by
  have htake : (encodeLE4 n ++ p ++ suffix).take 4 = encodeLE4 n := by
    rw [List.append_assoc, ← encodeLE4_length n, List.take_left]
  have hdrop : (encodeLE4 n ++ p ++ suffix).drop 4 = p ++ suffix := by
    rw [List.append_assoc, ← encodeLE4_length n, List.drop_left]
  have hlen : (encodeLE4 n ++ p ++ suffix).length = 4 + n + suffix.length := by
    simp [encodeLE4_length, hp]
    omega
  simp only [parse_and_validate_packet, if_true, htake, hdrop, hlen,
    intFromBytesLE_encodeLE4 n h2, UNREASONABLE_PACKET_HEADER_LENGTH]
  rw [if_neg (by omega), if_neg (by omega), if_neg (by omega), if_neg (by omega)]
  have hpay : (p ++ suffix).take n = p := by
    rw [← hp, List.take_left]
  rw [hpay]
  have hd : decide (4 + n + suffix.length - 4 > n) = decide (0 < suffix.length) :=
    decide_eq_decide.mpr (by omega)
  rw [hd]

/-! ### C1 -/

/-- C1: for every declared length `n` with `1 <= n <= 4096` and every
payload `p` of exactly `n` bytes, parsing the buffer `len_header(n) ++ p
++ suffix` in LengthPrefixed mode succeeds and returns exactly `p`; the
payload is non-empty, and trailing bytes only set the diagnostic flag,
never causing a failure. -/
theorem lengthPrefixed_roundtrip (n : Nat) (p suffix : List Nat)
    (h1 : 1 ≤ n) (h2 : n ≤ 4096) (hp : p.length = n) :
    parse_and_validate_packet (encodeLE4 n ++ p ++ suffix) true
      = .ok ⟨p, decide (0 < suffix.length)⟩ ∧ p ≠ [] := by
  refine ⟨lp_roundtrip n p suffix h1 h2 hp, ?_⟩
  intro he
  rw [he] at hp
  simp at hp
  omega

/-- Witness for C1 at `n = 1`, `p = [65]`, `suffix = [99]`: the trailing
byte is tolerated (diagnostic flag set) and the payload is exactly `p`. -/
theorem lengthPrefixed_roundtrip_witness :
    parse_and_validate_packet [1, 0, 0, 0, 65, 99] true
      = .ok ⟨[65], true⟩ ∧ [65] ≠ ([] : List Nat) :=
  lengthPrefixed_roundtrip 1 [65] [99] (by decide) (by decide) rfl

/-! ### C2 -/

/-- C2: in LengthPrefixed mode the parser fails with `shortHeader` exactly
on buffers of fewer than 4 bytes; otherwise, with `declared_len` the
little-endian value of the first 4 bytes, it fails with `zeroLength`
exactly when `declared_len = 0`, with `unreasonableLength` exactly when
`declared_len > 4096` (and nonzero), with `truncatedPacket` exactly when
`len(raw) - 4 < declared_len` (and the earlier checks passed), and in
every other case it succeeds. -/
theorem lengthPrefixed_error_cases (data : List Nat) :
    (parse_and_validate_packet data true = .error .shortHeader ↔
      data.length < 4) ∧
    (parse_and_validate_packet data true = .error .zeroLength ↔
      4 ≤ data.length ∧ intFromBytesLE (data.take 4) = 0) ∧
    (parse_and_validate_packet data true = .error .unreasonableLength ↔
      4 ≤ data.length ∧ intFromBytesLE (data.take 4) ≠ 0 ∧
        4096 < intFromBytesLE (data.take 4)) ∧
    (parse_and_validate_packet data true = .error .truncatedPacket ↔
      4 ≤ data.length ∧ intFromBytesLE (data.take 4) ≠ 0 ∧
        intFromBytesLE (data.take 4) ≤ 4096 ∧
        data.length - 4 < intFromBytesLE (data.take 4)) ∧
    ((∃ pk, parse_and_validate_packet data true = .ok pk) ↔
      4 ≤ data.length ∧ intFromBytesLE (data.take 4) ≠ 0 ∧
        intFromBytesLE (data.take 4) ≤ 4096 ∧
        intFromBytesLE (data.take 4) ≤ data.length - 4) := by
  simp only [parse_and_validate_packet, UNREASONABLE_PACKET_HEADER_LENGTH, if_true]
  split_ifs with hshort hzero hbig htrunc <;> simp_all

/-! ### Lemmas about `bfind` (Python `bytes.find`) -/

lemma bfind_eq_none {l : List Nat} {b : Nat} : bfind l b = none ↔ b ∉ l := by
  induction l with
  | nil => simp [bfind]
  | cons x xs ih =>
    by_cases hx : x = b
    · simp [bfind, hx]
    · simp only [bfind, if_neg hx, Option.map_eq_none', ih, List.mem_cons, not_or]
      constructor
      · intro h
        exact ⟨fun he => hx he.symm, h⟩
      · intro h
        exact h.2

lemma bfind_append {pre post : List Nat} {b : Nat} (h : b ∉ pre) :
    bfind (pre ++ b :: post) b = some pre.length := by
  induction pre with
  | nil => simp [bfind]
  | cons x xs ih =>
    have hx : x ≠ b := fun he => h (by simp [he])
    have hxs : b ∉ xs := fun hm => h (by simp [hm])
    simp [bfind, hx, ih hxs]

lemma bfind_take {l : List Nat} {b : Nat} {i : Nat}
    (h : bfind l b = some i) : b ∉ l.take i := by
  induction l generalizing i with
  | nil => simp
  | cons x xs ih =>
    by_cases hx : x = b
    · simp [bfind, hx] at h
      subst h
      simp
    · simp only [bfind, if_neg hx] at h
      rcases Option.map_eq_some'.mp h with ⟨j, hj, hji⟩
      subst hji
      simp only [List.take_succ_cons, List.mem_cons, not_or]
      exact ⟨fun he => hx he.symm, ih hj⟩

/-! ### C5 -/

/-- C5: in Newline mode the parser fails (with `missingTerminator`, and
with no other error) exactly when `raw` has no newline byte; on any
decomposition `raw = pre ++ 10 :: post` with no newline in `pre`, it
succeeds returning exactly `pre`, with the diagnostic flag set exactly
when bytes follow the first newline; a successful payload never contains
a newline byte. -/
theorem newline_parse_correct (data : List Nat) :
    (parse_and_validate_packet data false = .error .missingTerminator ↔
      10 ∉ data) ∧
    (∀ e, parse_and_validate_packet data false = .error e →
      e = .missingTerminator) ∧
    (∀ pre post, 10 ∉ pre → data = pre ++ 10 :: post →
      parse_and_validate_packet data false = .ok ⟨pre, decide (post ≠ [])⟩) ∧
    (∀ pk, parse_and_validate_packet data false = .ok pk →
      10 ∉ pk.payload) := by
  refine ⟨?_, ?_, ?_, ?_⟩
  · rw [← bfind_eq_none (l := data) (b := 10)]
    unfold parse_and_validate_packet
    cases h : bfind data 10 <;> simp [h]
  · intro e he
    unfold parse_and_validate_packet at he
    cases h : bfind data 10 <;> rw [h] at he <;> simp at he
    exact he.symm
  · intro pre post hpre hdata
    subst hdata
    have htake : (pre ++ 10 :: post).take pre.length = pre := List.take_left ..
    have hdec : decide (pre.length ≠ (pre ++ 10 :: post).length - 1)
        = decide (post ≠ []) := by
      refine decide_eq_decide.mpr ?_
      rw [← List.length_pos]
      simp only [List.length_append, List.length_cons]
      omega
    unfold parse_and_validate_packet
    rw [bfind_append hpre]
    simp [htake, hdec]
  · intro pk hok
    unfold parse_and_validate_packet at hok
    cases h : bfind data 10 <;> rw [h] at hok <;> simp at hok
    rw [← hok]
    exact bfind_take h

/-- Witness for C5: `parse(b"hello\n")` returns `b"hello"` with no
diagnostic; `parse(b"hello")` fails with the missing-terminator error. -/
theorem newline_parse_correct_witness :
    parse_and_validate_packet [104, 101, 108, 108, 111, 10] false
      = .ok ⟨[104, 101, 108, 108, 111], false⟩ ∧
    parse_and_validate_packet [104, 101, 108, 108, 111] false
      = .error .missingTerminator :=
  ⟨(newline_parse_correct [104, 101, 108, 108, 111, 10]).2.2.1
      [104, 101, 108, 108, 111] [] (by decide) rfl,
   (newline_parse_correct [104, 101, 108, 108, 111]).1.mpr (by decide)⟩

/-! ### Helper lemmas about `_send_command` and `_read_response` -/

lemma send_ok (t : Transport) (cmd : List Nat) (hw : t.writeBehavior = .ok)
    (ha : (terminate cmd).all (· < 128) = true) :
    _send_command t cmd = (.sent, { t with writes := t.writes ++ [terminate cmd] }) := by
  unfold _send_command
  simp only [ha, if_true, hw]

lemma send_isOpen (t : Transport) (cmd : List Nat) :
    ((_send_command t cmd).2).isOpen = t.isOpen := by
  unfold _send_command
  by_cases h : (terminate cmd).all (· < 128) = true <;>
    cases hw : t.writeBehavior <;> simp [h, hw]

lemma terminate_all_lt (cmd : List Nat) :
    (terminate cmd).all (· < 128) = true ↔ ∀ c ∈ cmd, c < 128 := by
  unfold terminate
  split <;> simp [List.all_eq_true]

lemma read_none (t : Transport) (b lh bp : Bool)
    (h : t.response = .timeout ∨ t.response = .data []) :
    _read_response t b lh bp = .ok none := by
  unfold _read_response
  rcases h with h | h <;> rw [h]
  simp

lemma read_parse_error (t : Transport) (b lh : Bool) (data : List Nat) (e : ParseError)
    (hr : t.response = .data data) (hne : data ≠ [])
    (hp : parse_and_validate_packet data lh = .error e) :
    _read_response t b lh false = .error (.parse e) := by
  unfold _read_response
  rw [hr]
  have hie : data.isEmpty = false := by
    cases data
    · exact absurd rfl hne
    · rfl
  simp only [hie, Bool.false_eq_true, if_false, if_neg, hp]

/-! ### C3 -/

/-- C3 counterexample: a `json` (Structured) query with Newline framing on
a transport that then times out is not rejected with the invalid-argument
error — the command is written to the transport (one write, `b"X\n"`) and
the call returns None. -/
theorem structured_newline_not_rejected_cx :
    (query (stubTransport .timeout) [88] .json false false).1 = .ok .none ∧
    ((query (stubTransport .timeout) [88] .json false false).2).writes
      = [[88, 10]] :=
  ⟨rfl, rfl⟩

/-- C3 amended: only the `int8` (Int8Samples) data type with Newline
framing is rejected immediately with the invalid-argument error, before
any transport write or read (the transport state is returned unchanged);
the `json` (Structured) data type is not checked at the query boundary. -/
theorem int8_newline_rejected (t : Transport) (cmd : List Nat) (bp : Bool) :
    query t cmd .int8 false bp = (.error .invalidArgument, t) := by
  unfold query
  rw [if_pos ⟨rfl, rfl⟩]

/-! ### C7 -/

/-- C7 counterexample: for a command already ending in two newlines, the
sent bytes are the command unchanged, which does not end with exactly one
trailing newline. -/
theorem send_two_trailing_newlines_cx :
    (_send_command (stubTransport .timeout) [120, 10, 10]).1 = .sent ∧
    ((_send_command (stubTransport .timeout) [120, 10, 10]).2).writes
      = [[120, 10, 10]] ∧
    ¬ endsWithSingleNewline [120, 10, 10] :=
  ⟨rfl, rfl, by decide⟩

/-- C7 amended: for every ASCII-encodable command, `send` performs exactly
one transport write; the transmitted bytes are the command unchanged when
it already ends with a newline and the command with a single newline
appended otherwise; the transmitted bytes always end with a newline (but
may end with more than one when the input already did). -/
theorem send_newline_termination (t : Transport) (cmd : List Nat)
    (hw : t.writeBehavior = .ok)
    (ha : (terminate cmd).all (· < 128) = true) :
    _send_command t cmd
      = (.sent, { t with writes := t.writes ++ [terminate cmd] }) ∧
    (cmd.getLast? = some 10 → terminate cmd = cmd) ∧
    (cmd.getLast? ≠ some 10 → terminate cmd = cmd ++ [10]) ∧
    (terminate cmd).getLast? = some 10 := by
  refine ⟨send_ok t cmd hw ha, fun h => by simp [terminate, h],
    fun h => by simp [terminate, h], ?_⟩
  unfold terminate
  split
  · assumption
  · simp

/-- Witness for C7 at a command without a trailing newline: one newline is
appended and exactly one write occurs. -/
theorem send_newline_termination_witness :
    _send_command (stubTransport .timeout) [88]
      = (.sent, { stubTransport .timeout with writes := [[88, 10]] }) ∧
    (([88] : List Nat).getLast? = some 10 → terminate [88] = [88]) ∧
    (([88] : List Nat).getLast? ≠ some 10 → terminate [88] = [88, 10]) ∧
    (terminate [88]).getLast? = some 10 :=
  send_newline_termination (stubTransport .timeout) [88] rfl (by decide)

/-! ### C8 -/

/-- C8 counterexample: the TAB character (code point 9) is outside the
printable ASCII range, yet `send` succeeds and writes `b"\t\n"` to the
transport — no encoding failure occurs. -/
theorem send_control_char_encodes_cx :
    ¬ printableAscii 9 ∧
    (_send_command (stubTransport .timeout) [9]).1 = .sent ∧
    ((_send_command (stubTransport .timeout) [9]).2).writes = [[9, 10]] :=
  ⟨by decide, rfl, rfl⟩

/-- C8 amended: `send` fails with an encoding error — writing nothing and
leaving the transport unchanged — exactly when the command contains a
character with code point 128 or above (outside 7-bit ASCII); a command of
solely printable ASCII characters never causes an encoding failure. -/
theorem send_encoding_failure_iff (t : Transport) (cmd : List Nat) :
    ((_send_command t cmd).1 = .encodingFailed ↔ ∃ c ∈ cmd, 128 ≤ c) ∧
    ((_send_command t cmd).1 = .encodingFailed → (_send_command t cmd).2 = t) ∧
    ((∀ c ∈ cmd, printableAscii c) →
      (_send_command t cmd).1 ≠ .encodingFailed) := by
  by_cases hall : (terminate cmd).all (· < 128) = true
  · have hno : ¬ ∃ c ∈ cmd, 128 ≤ c := by
      rintro ⟨c, hc, h128⟩
      exact absurd ((terminate_all_lt cmd).mp hall c hc) (by omega)
    unfold _send_command
    simp only [hall, if_true]
    cases hw : t.writeBehavior <;> simp [hno]
  · have hyes : ∃ c ∈ cmd, 128 ≤ c := by
      rw [terminate_all_lt] at hall
      push_neg at hall
      rcases hall with ⟨c, hc, h128⟩
      exact ⟨c, hc, by omega⟩
    have hnp : ¬ ∀ c ∈ cmd, printableAscii c := by
      rcases hyes with ⟨c, hc, h128⟩
      intro hp
      rcases hp c hc with ⟨_, hle⟩
      omega
    unfold _send_command
    simp only [hall, Bool.false_eq_true, if_false]
    exact ⟨by simp [hyes], fun _ => by simp, fun h => absurd h hnp⟩

/-- Witness for C8: a non-ASCII command (code point 200) fails encoding
with the transport unchanged; the printable command `b"A"` does not. -/
theorem send_encoding_failure_iff_witness :
    ((_send_command (stubTransport .timeout) [200]).1 = .encodingFailed) ∧
    (_send_command (stubTransport .timeout) [200]).2 = stubTransport .timeout ∧
    (_send_command (stubTransport .timeout) [65]).1 ≠ .encodingFailed :=
  ⟨(send_encoding_failure_iff (stubTransport .timeout) [200]).1.mpr
      ⟨200, by simp, by norm_num⟩,
   (send_encoding_failure_iff (stubTransport .timeout) [200]).2.1
      ((send_encoding_failure_iff (stubTransport .timeout) [200]).1.mpr
        ⟨200, by simp, by norm_num⟩),
   (send_encoding_failure_iff (stubTransport .timeout) [65]).2.2
      (by intro c hc; rcases List.mem_singleton.mp hc with rfl; exact ⟨by omega, by omega⟩)⟩

/-! ### C4 -/

/-- C4: when the command was sent and the data-type/framing combination is
accepted, a read timeout — including a read yielding zero bytes within the
deadline — makes `query` return None with no exception escaping; a framing
validation failure raised by the packet parser propagates out of `query`
as a typed error and is never converted into None. -/
theorem query_timeout_none_framing_propagates
    (t : Transport) (cmd : List Nat) (dt : DataType) (lh : Bool)
    (hw : t.writeBehavior = .ok)
    (ha : (terminate cmd).all (· < 128) = true)
    (hchk : ¬(dt = .int8 ∧ lh = false)) :
    ((t.response = .timeout ∨ t.response = .data []) →
      (query t cmd dt lh false).1 = .ok .none) ∧
    (∀ data e, t.response = .data data → data ≠ [] →
      parse_and_validate_packet data lh = .error e →
      (query t cmd dt lh false).1 = .error (.parse e)) := by
  have hsend := send_ok t cmd hw ha
  constructor
  · intro hresp
    have hr : ∀ b : Bool,
        _read_response { t with writes := t.writes ++ [terminate cmd] } b lh false
          = .ok none :=
      fun b => read_none _ b lh false hresp
    unfold query
    rw [if_neg hchk, hsend]
    cases dt <;> simp [hr]
  · intro data e hresp hne hp
    have hr : ∀ b : Bool,
        _read_response { t with writes := t.writes ++ [terminate cmd] } b lh false
          = .error (.parse e) :=
      fun b => read_parse_error _ b lh data e hresp hne hp
    unfold query
    rw [if_neg hchk, hsend]
    cases dt <;> simp [hr]

/-- Witness for C4: a timed-out `str` query returns None; the same query
against a response lacking its newline terminator raises the typed
missing-terminator framing error. -/
theorem query_timeout_none_framing_propagates_witness :
    (query (stubTransport .timeout) [88] .str false false).1 = .ok .none ∧
    (query (stubTransport (.data [104])) [88] .str false false).1
      = .error (.parse .missingTerminator) :=
  ⟨(query_timeout_none_framing_propagates (stubTransport .timeout) [88] .str false
      rfl (by decide) (by simp)).1 (Or.inl rfl),
   (query_timeout_none_framing_propagates (stubTransport (.data [104])) [88] .str false
      rfl (by decide) (by simp)).2 [104] .missingTerminator rfl (by decide) rfl⟩

/-! ### C6 -/

/-- C6: Int8Samples decoding maps a validated payload of `k` bytes to a
list of exactly `k` signed integers, one per byte in the same order, each
the two's-complement reinterpretation of its byte — the unique integer in
`[-128, 127]` congruent to the byte modulo 256; bytes 0xFF, 0x7F and 0x80
decode to -1, 127 and -128. -/
theorem int8_decoding
    (t : Transport) (cmd : List Nat) (n : Nat) (bs suffix : List Nat)
    (hw : t.writeBehavior = .ok)
    (ha : (terminate cmd).all (· < 128) = true)
    (hr : t.response = .data (encodeLE4 n ++ bs ++ suffix))
    (h1 : 1 ≤ n) (h2 : n ≤ 4096) (hn : bs.length = n) :
    (query t cmd .int8 true false).1 = .ok (.int8 (bs.map toInt8)) ∧
    (bs.map toInt8).length = bs.length ∧
    toInt8 255 = -1 ∧ toInt8 127 = 127 ∧ toInt8 128 = -128 ∧
    (∀ b, b < 256 → -128 ≤ toInt8 b ∧ toInt8 b ≤ 127 ∧ toInt8 b % 256 = (b : Int)) := by
  have hsend := send_ok t cmd hw ha
  have hparse := lp_roundtrip n bs suffix h1 h2 hn
  have hbsne : bs ≠ [] := by
    intro h
    rw [h] at hn
    simp at hn
    omega
  have hbse : bs.isEmpty = false := by
    cases bs
    · exact absurd rfl hbsne
    · rfl
  refine ⟨?_, by simp, by decide, by decide, by decide, ?_⟩
  have hemp : (encodeLE4 n ++ bs ++ suffix).isEmpty = false := rfl
  · unfold query
    rw [if_neg (by simp), hsend]
    have hparse2 : parse_and_validate_packet (encodeLE4 n ++ (bs ++ suffix)) true
        = .ok ⟨bs, decide (0 < suffix.length)⟩ := by
      rw [← List.append_assoc]
      exact hparse
    simp [_read_response, hr, hemp, hparse, hbsne]
    simp [hparse2, hbsne]
  · intro b hb
    unfold toInt8
    split <;> refine ⟨by omega, by omega, by omega⟩

/-- Witness for C6: the payload `[0xFF, 0x7F, 0x80]` under a declared
length of 3 decodes to `[-1, 127, -128]`. -/
theorem int8_decoding_witness :
    (query (stubTransport (.data [3, 0, 0, 0, 255, 127, 128])) [88] .int8 true false).1
      = .ok (.int8 [-1, 127, -128]) :=
  (int8_decoding (stubTransport (.data [3, 0, 0, 0, 255, 127, 128])) [88] 3
    [255, 127, 128] [] rfl (by decide) rfl (by decide) (by decide) rfl).1

/-! ### C9 -/

lemma query_snd (t : Transport) (cmd : List Nat) (dt : DataType) (lh bp : Bool) :
    (query t cmd dt lh bp).2 = t ∨ (query t cmd dt lh bp).2 = (_send_command t cmd).2 := by
  unfold query
  repeat' first
    | exact Or.inl rfl
    | split
  all_goals right
  all_goals simp_all

/-- C9: `close` is idempotent on both the serial and the USB transport —
after any first `close`, a second `close` is a no-op returning `false`
with the state unchanged — and no engine operation (`query`, `set`)
invokes `close` implicitly: both leave the transport's open flag exactly
as it was. -/
theorem close_idempotent_engine_no_close :
    (∀ s : SerialState, serialClose (serialClose s).2 = (false, (serialClose s).2)) ∧
    (∀ s : UsbState, usbClose (usbClose s).2 = (false, (usbClose s).2)) ∧
    (∀ (t : Transport) (cmd : List Nat) (dt : DataType) (lh bp : Bool),
      ((query t cmd dt lh bp).2).isOpen = t.isOpen) ∧
    (∀ (t : Transport) (cmd : List Nat), ((set t cmd).2).isOpen = t.isOpen) := by
  refine ⟨?_, ?_, ?_, ?_⟩
  · rintro ⟨o⟩
    cases o <;> rfl
  · rintro ⟨d⟩
    cases d <;> rfl
  · intro t cmd dt lh bp
    rcases query_snd t cmd dt lh bp with h | h <;> rw [h]
    exact send_isOpen t cmd
  · intro t cmd
    exact send_isOpen t cmd

/-! ### C10 -/

/-- C10: the raw read `b"\n"` parses successfully to an empty payload
(possible only under Newline framing — a LengthPrefixed success never has
an empty payload), and `query` then returns None, the same value produced
by a timeout: a valid empty response is indistinguishable from "no result"
at the `query` boundary. -/
theorem empty_payload_query_none (t : Transport) (cmd : List Nat)
    (hw : t.writeBehavior = .ok)
    (ha : (terminate cmd).all (· < 128) = true) :
    parse_and_validate_packet [10] false = .ok ⟨[], false⟩ ∧
    (t.response = .data [10] → (query t cmd .str false false).1 = .ok .none) ∧
    (t.response = .timeout → (query t cmd .str false false).1 = .ok .none) ∧
    (∀ data pk, parse_and_validate_packet data true = .ok pk → pk.payload ≠ []) := by
  have hsend := send_ok t cmd hw ha
  refine ⟨rfl, ?_, ?_, ?_⟩
  · intro h
    unfold query
    rw [if_neg (by simp), hsend]
    simp [_read_response, h, parse_and_validate_packet, bfind]
  · intro h
    unfold query
    rw [if_neg (by simp), hsend]
    simp [_read_response, h]
  · intro data pk hok
    unfold parse_and_validate_packet at hok
    simp only [if_true] at hok
    split_ifs at hok with hA hB hC hD <;>
      first
        | exact Except.noConfusion hok
        | (injection hok with hpk
           subst hpk
           intro hcontra
           have hlen := congrArg List.length hcontra
           simp [List.length_take, List.length_drop] at hlen
           omega)

/-- Witness for C10: with the raw read `b"\n"`, `query` returns None, and
with a timeout it returns the same None. -/
theorem empty_payload_query_none_witness :
    parse_and_validate_packet [10] false = .ok ⟨[], false⟩ ∧
    (query (stubTransport (.data [10])) [88] .str false false).1 = .ok .none ∧
    (query (stubTransport .timeout) [88] .str false false).1 = .ok .none :=
  ⟨(empty_payload_query_none (stubTransport (.data [10])) [88] rfl (by decide)).1,
   (empty_payload_query_none (stubTransport (.data [10])) [88] rfl (by decide)).2.1 rfl,
   (empty_payload_query_none (stubTransport .timeout) [88] rfl (by decide)).2.2.1 rfl⟩
